import Mathlib

/-!  A verification development for the Pareto chart visual
(src/paretoChart.ts).  The data-to-geometry pipeline of the source is
embedded shallowly: JavaScript numbers are modelled as exact rationals
extended with NaN and the two infinities (the IEEE special values the
relevant code paths can produce), absent values as an explicit `undef`,
fallible code as `Except`.  Every definition mirrors the corresponding
function of the source; the d3 primitives the source calls (band scale,
linear scale, the by-index data join) are embedded from their documented
semantics, since d3 is an external dependency of the repository.  -/

namespace ParetoSpec

/-- A JavaScript number: a finite value (kept exact as a rational) or one
of the IEEE special values.  Negative zero is collapsed into 0; no claim
distinguishes them.  -/
inductive JSNum where
  | fin : ℚ → JSNum
  | nan : JSNum
  | posInf : JSNum
  | negInf : JSNum
deriving DecidableEq, Repr

/-- JavaScript `+` on numbers: NaN propagates, opposite infinities give
NaN.  -/
def jsAdd : JSNum → JSNum → JSNum
  | JSNum.nan, _ => JSNum.nan
  | _, JSNum.nan => JSNum.nan
  | JSNum.posInf, JSNum.negInf => JSNum.nan
  | JSNum.negInf, JSNum.posInf => JSNum.nan
  | JSNum.posInf, _ => JSNum.posInf
  | _, JSNum.posInf => JSNum.posInf
  | JSNum.negInf, _ => JSNum.negInf
  | _, JSNum.negInf => JSNum.negInf
  | JSNum.fin a, JSNum.fin b => JSNum.fin (a + b)

/-- JavaScript unary minus on numbers.  -/
def jsNeg : JSNum → JSNum
  | JSNum.fin a => JSNum.fin (-a)
  | JSNum.nan => JSNum.nan
  | JSNum.posInf => JSNum.negInf
  | JSNum.negInf => JSNum.posInf

/-- JavaScript `-` on numbers.  -/
def jsSub (a b : JSNum) : JSNum := jsAdd a (jsNeg b)

/-- JavaScript `*` on numbers: NaN propagates, infinity times zero is
NaN.  -/
def jsMul : JSNum → JSNum → JSNum
  | JSNum.nan, _ => JSNum.nan
  | _, JSNum.nan => JSNum.nan
  | JSNum.fin a, JSNum.fin b => JSNum.fin (a * b)
  | JSNum.posInf, JSNum.posInf => JSNum.posInf
  | JSNum.posInf, JSNum.negInf => JSNum.negInf
  | JSNum.negInf, JSNum.posInf => JSNum.negInf
  | JSNum.negInf, JSNum.negInf => JSNum.posInf
  | JSNum.posInf, JSNum.fin b =>
      if b = 0 then JSNum.nan else if 0 < b then JSNum.posInf else JSNum.negInf
  | JSNum.fin a, JSNum.posInf =>
      if a = 0 then JSNum.nan else if 0 < a then JSNum.posInf else JSNum.negInf
  | JSNum.negInf, JSNum.fin b =>
      if b = 0 then JSNum.nan else if 0 < b then JSNum.negInf else JSNum.posInf
  | JSNum.fin a, JSNum.negInf =>
      if a = 0 then JSNum.nan else if 0 < a then JSNum.negInf else JSNum.posInf

/-- JavaScript `/` on numbers: 0/0 is NaN, a nonzero finite value over 0
is a signed infinity (JavaScript's literal 0 is +0), NaN propagates.  -/
def jsDiv : JSNum → JSNum → JSNum
  | JSNum.nan, _ => JSNum.nan
  | _, JSNum.nan => JSNum.nan
  | JSNum.fin a, JSNum.fin b =>
      if b = 0 then
        (if a = 0 then JSNum.nan else if 0 < a then JSNum.posInf else JSNum.negInf)
      else JSNum.fin (a / b)
  | JSNum.fin _, JSNum.posInf => JSNum.fin 0
  | JSNum.fin _, JSNum.negInf => JSNum.fin 0
  | JSNum.posInf, JSNum.fin b =>
      if 0 ≤ b then JSNum.posInf else JSNum.negInf
  | JSNum.negInf, JSNum.fin b =>
      if 0 ≤ b then JSNum.negInf else JSNum.posInf
  | JSNum.posInf, JSNum.posInf => JSNum.nan
  | JSNum.posInf, JSNum.negInf => JSNum.nan
  | JSNum.negInf, JSNum.posInf => JSNum.nan
  | JSNum.negInf, JSNum.negInf => JSNum.nan

/-- A `PrimitiveValue` cell of the value column: a number, `null`, or
`undefined` (what indexing past the end of a JavaScript array yields).  -/
inductive JSVal where
  | undef : JSVal
  | null : JSVal
  | num : JSNum → JSVal
deriving DecidableEq, Repr

/-- JavaScript ToNumber, as applied by the arithmetic operators of the
source to a cell: `undefined` becomes NaN and `null` becomes 0.  -/
def toNumber : JSVal → JSNum
  | JSVal.undef => JSNum.nan
  | JSVal.null => JSNum.fin 0
  | JSVal.num x => x

/-- `DataViewCategoryColumn`, reduced to what `createSelectorDataPoints`
reads: the truthiness of its `source` metadata and its cell values
(modelled as strings, the template literal of the source stringifies
them anyway).  -/
structure CategoryColumn where
  hasSource : Bool
  values : List String
deriving DecidableEq, Repr

/-- The value column: its cells and, when present, the per-cell `objects`
carrying `general.formatString`.  -/
structure ValueColumn where
  values : List JSVal
  objects : Option (List String)
deriving DecidableEq, Repr

/-- `DataView.categorical`: the two column lists, each possibly absent.  -/
structure Categorical where
  categories : Option (List CategoryColumn)
  values : Option (List ValueColumn)
deriving DecidableEq, Repr

/-- A `DataView`; only its `categorical` part is read by the embedded
code.  -/
structure DataView where
  categorical : Option Categorical
deriving DecidableEq, Repr

/-- `VisualUpdateOptions`, reduced to what `update` reads: the data views
and the viewport.  -/
structure VisualUpdateOptions where
  dataViews : Option (List DataView)
  viewportWidth : ℚ
  viewportHeight : ℚ
deriving DecidableEq, Repr

/-- A thrown JavaScript exception.  -/
inductive JsError where
  | typeError : String → JsError
deriving DecidableEq, Repr

/-- A `BarChartDataPoint`.  The presentation-only fields (`color`,
`strokeColor`, `strokeWidth`) are resolved through palette utilities
outside this repository's source file and no claim mentions them, so
they are omitted.  `selectionId` is the identity issued per category
index by the host (`withCategory(category, i)`), modelled as the index;
`none` models an absent identity.  -/
structure BarChartDataPoint where
  value : JSVal
  category : String
  index : ℕ
  selectionId : Option ℕ
  format : Option String
  cumulative : Option JSNum := none
deriving DecidableEq, Repr

/-- The `format` field of the data point at index `i`:
`dataValue.objects ? dataValue.objects[i].general.formatString : null`.
When `objects` is present but has no entry at `i`, the member access on
`undefined` throws.  -/
def formatAt (objects : Option (List String)) (i : ℕ) : Except JsError (Option String) :=
  match objects with
  | none => Except.ok none
  | some objs =>
      match objs.get? i with
      | none => Except.error (JsError.typeError "Cannot read properties of undefined (reading general)")
      | some s => Except.ok (some s)

/-- Sequencing a fallible computation over a list: the builder's for-loop,
which stops at the first thrown exception.  -/
def mapExcept {α β : Type} (f : α → Except JsError β) : List α → Except JsError (List β)
  | [] => Except.ok []
  | x :: xs =>
      match f x with
      | Except.error e => Except.error e
      | Except.ok y =>
          match mapExcept f xs with
          | Except.error e => Except.error e
          | Except.ok ys => Except.ok (y :: ys)

/-- The loop body of `createSelectorDataPoints`: one data point per index
up to `max(category.values.length, dataValue.values.length)`.  Indexing
past the end of either cell list yields `undefined`; the template
literal turns an `undefined` category cell into the string
"undefined".  -/
def buildDataPoints (category : CategoryColumn) (dataValue : ValueColumn) :
    Except JsError (List BarChartDataPoint) :=
  mapExcept (fun i =>
    (formatAt dataValue.objects i).map (fun fmt =>
      { value := (dataValue.values.get? i).getD JSVal.undef
        category := (category.values.get? i).getD "undefined"
        index := i
        selectionId := some i
        format := fmt
        cumulative := none }))
    (List.range (max category.values.length dataValue.values.length))

/-- `createSelectorDataPoints` (src/paretoChart.ts lines 186-233).  The
guard returns an empty list when `dataViews`, `dataViews[0]`,
`categorical`, `categories`, `categories[0].source` or `values` is
falsy; but evaluating `categories[0].source` with `categories` an empty
(truthy) array throws, and with `values` an empty (truthy) array the
loop bound `dataValue.values.length` reads `values` of `undefined` and
throws.  -/
def createSelectorDataPoints (options : VisualUpdateOptions) :
    Except JsError (List BarChartDataPoint) :=
  match options.dataViews with
  | none => Except.ok []
  | some dvs =>
      match dvs.head? with
      | none => Except.ok []
      | some dv =>
          match dv.categorical with
          | none => Except.ok []
          | some categorical =>
              match categorical.categories with
              | none => Except.ok []
              | some cats =>
                  match cats.head? with
                  | none => Except.error (JsError.typeError "Cannot read properties of undefined (reading source)")
                  | some category0 =>
                      if !category0.hasSource then Except.ok []
                      else
                        match categorical.values with
                        | none => Except.ok []
                        | some valCols =>
                            match valCols.head? with
                            | none => Except.error (JsError.typeError "Cannot read properties of undefined (reading values)")
                            | some dataValue => buildDataPoints category0 dataValue

/-- A well-formed single-category, single-measure query result: test
harness constructor used by concrete instances.  -/
def mkOptions (hasSource : Bool) (cs : List String) (vs : List JSVal) (w h : ℚ) :
    VisualUpdateOptions :=
  let catCol : CategoryColumn := { hasSource := hasSource, values := cs }
  let valCol : ValueColumn := { values := vs, objects := none }
  let categorical : Categorical := { categories := some [catCol], values := some [valCol] }
  { dataViews := some [{ categorical := some categorical }]
    viewportWidth := w
    viewportHeight := h }

/-- The series total (update, lines 431-435):
`this.barDataPoints.forEach(v => total += <number>v.value)` starting from
`let total = 0`.  The TypeScript cast is erased at runtime, so an
`undefined` cell adds NaN and a `null` cell adds 0.  -/
def computeTotal (pts : List BarChartDataPoint) : JSNum :=
  pts.foldl (fun t p => jsAdd t (toNumber p.value)) (JSNum.fin 0)

/-- The cumulative pass of `update` (lines 507-516):
`cumulative = cumulative + <number>el.value / total * 100` followed by
`el.cumulative = cumulative`, mapped over the data points in input
order.  -/
def cumulativeSeries (total : JSNum) : JSNum → List BarChartDataPoint → List BarChartDataPoint
  | _, [] => []
  | cum, p :: ps =>
      let cum2 := jsAdd cum (jsMul (jsDiv (toNumber p.value) total) (JSNum.fin 100))
      ({ p with cumulative := some cum2 }) :: cumulativeSeries total cum2 ps

/-- The rational carried by a finite cell value, 0 otherwise (used only
to state theorems about the all-finite case).  -/
def ratValue (p : BarChartDataPoint) : ℚ :=
  match toNumber p.value with
  | JSNum.fin q => q
  | _ => 0

/-- The ideal series total of a data point list, as a rational.  -/
def ratTotal (pts : List BarChartDataPoint) : ℚ := (pts.map ratValue).sum

/-- The ideal sum of the first `k` cell values, as a rational.  -/
def partialSum (pts : List BarChartDataPoint) (k : ℕ) : ℚ :=
  ((pts.take k).map ratValue).sum

/-- Whether a cell value is a finite, non-negative number (decidably, for
concrete witnesses).  -/
def isFinNonneg (p : BarChartDataPoint) : Bool :=
  match p.value with
  | JSVal.num (JSNum.fin q) => decide (0 ≤ q)
  | _ => false

/-- JavaScript `Math.round`: half-up, as floor of the value plus one
half.  -/
def jsMathRound (q : ℚ) : ℚ := ((q + 1/2).floor : ℤ)

/-- A computed d3 band scale: its (deduplicated) domain and the resolved
start, step and bandwidth.  -/
structure BandScale where
  domain : List String
  start : ℚ
  step : ℚ
  bandwidth : ℚ
deriving DecidableEq, Repr

/-- d3 stores band-scale domains in an InternMap: a duplicated value
keeps its first occurrence only.  -/
def dedupKeepFirst (l : List String) : List String :=
  l.foldl (fun seen x => if x ∈ seen then seen else seen ++ [x]) []

/-- The band scale of `update` (lines 470-473):
`scaleBand().domain(categories).rangeRound([0, width]).padding(0.2)`,
resolved per the d3 band implementation with align 1/2, inner and outer
padding 1/5, and `rangeRound` flooring the step and rounding start and
bandwidth.  -/
def mkBandScale (dom : List String) (r0 r1 : ℚ) : BandScale :=
  let domain := dedupKeepFirst dom
  let n : ℚ := domain.length
  let step0 := (r1 - r0) / max 1 (n - 1/5 + (1/5) * 2)
  let step : ℚ := (step0.floor : ℤ)
  let start0 := r0 + (r1 - r0 - step * (n - 1/5)) * (1/2)
  let bandwidth0 := step * (1 - 1/5)
  { domain := domain
    start := jsMathRound start0
    step := step
    bandwidth := jsMathRound bandwidth0 }

/-- The position of a label in a band-scale domain (the d3 InternMap
lookup from value to index).  -/
def idxOf : List String → String → Option ℕ
  | [], _ => none
  | y :: ys, x => if y = x then some 0 else (idxOf ys x).map (· + 1)

/-- Applying a band scale to a label: the band start of its position in
the deduplicated domain, or `undefined` for a label outside the
domain.  -/
def BandScale.apply (s : BandScale) (x : String) : Option ℚ :=
  (idxOf s.domain x).map (fun i => s.start + s.step * i)

/-- A d3 linear scale `scaleLinear().domain([d0, d1]).range([r0, r1])`
applied to `x`: the normalized position `(x - d0) / (d1 - d0)` is
interpolated over the range; a zero-length domain degenerates to the
constant 1/2 position and a NaN-length domain to NaN, per the d3
`normalize` implementation.  -/
def d3LinearScale (d0 d1 : JSNum) (r0 r1 : ℚ) (x : JSNum) : JSNum :=
  let t : JSNum :=
    match jsSub d1 d0 with
    | JSNum.nan => JSNum.nan
    | JSNum.fin b => if b = 0 then JSNum.fin (1/2) else jsDiv (jsSub x d0) (JSNum.fin b)
    | b => jsDiv (jsSub x d0) b
  jsAdd (JSNum.fin r0) (jsMul t (JSNum.fin (r1 - r0)))

/-- `ParetoChart.Config` and the fixed margins (lines 323-334).  -/
def solidOpacity : ℚ := 1

/-- `Config.transparentOpacity`.  -/
def transparentOpacity : ℚ := 4/10

/-- `Config.margins.top`.  -/
def marginTop : ℚ := 20

/-- `Config.margins.right`.  -/
def marginRight : ℚ := 2

/-- `Config.margins.bottom`.  -/
def marginBottom : ℚ := 5

/-- A band-scale result used in further arithmetic: `undefined` would
propagate as NaN.  -/
def optToNum : Option ℚ → JSNum
  | some q => JSNum.fin q
  | none => JSNum.nan

/-- `xScale(category) + xScale.bandwidth()` for the line vertices.  -/
def optAddBW (o : Option ℚ) (bw : ℚ) : JSNum :=
  match o with
  | some q => JSNum.fin (q + bw)
  | none => JSNum.nan

/-- The attributes `update` sets on each bar rect (lines 560-573), those
that are per-element data: position, size and the two opacities.  -/
structure BarAttrs where
  x : Option ℚ
  y : JSNum
  width : ℚ
  height : JSNum
  fillOpacity : ℚ
  strokeOpacity : ℚ
deriving DecidableEq, Repr

/-- A rendered bar rect: a persistent element identity (d3 keeps the DOM
node of an updated element), its bound datum and its attributes.  -/
structure BarElement where
  elemId : ℕ
  datum : BarChartDataPoint
  attrs : BarAttrs
deriving DecidableEq, Repr

/-- The attribute computation of the merged bar selection: `width` is the
bandwidth, `y` is `yScale(value)`, `height` is `height - yScale(value)`,
`x` is `xScale(category)`, and both opacities are the configured
`generalView.opacity / 100`.  -/
def mkBarAttrs (xScale : BandScale) (yScale : JSNum → JSNum) (h opacity : ℚ)
    (d : BarChartDataPoint) : BarAttrs :=
  { x := xScale.apply d.category
    y := yScale (toNumber d.value)
    width := xScale.bandwidth
    height := jsSub (JSNum.fin h) (yScale (toNumber d.value))
    fillOpacity := opacity
    strokeOpacity := opacity }

/-- The d3 by-index data join of `update` (lines 546-557 and 598-600):
elements paired with data are updated in place (their identity kept, all
attributes reset from the datum), surplus data enters as new elements,
surplus elements exit and are removed.  `nextId` is the supply of fresh
element identities.  -/
def renderBars (existing : List BarElement) (nextId : ℕ)
    (data : List BarChartDataPoint) (f : BarChartDataPoint → BarAttrs) :
    List BarElement × ℕ :=
  match existing, data with
  | _, [] => ([], nextId)
  | e :: ex, p :: ps =>
      let rest := renderBars ex nextId ps f
      ({ elemId := e.elemId, datum := p, attrs := f p } :: rest.1, rest.2)
  | [], p :: ps =>
      let rest := renderBars [] (nextId + 1) ps f
      ({ elemId := nextId, datum := p, attrs := f p } :: rest.1, rest.2)

/-- A line marker circle (lines 534-544), cleared and recreated on every
update.  -/
structure CircleElement where
  cx : JSNum
  cy : JSNum
  r : ℚ
deriving DecidableEq, Repr

/-- Setting both opacity styles of a bar element, as `syncSelectionState`
does.  -/
def setOpacity (op : ℚ) (e : BarElement) : BarElement :=
  { e with attrs := { e.attrs with fillOpacity := op, strokeOpacity := op } }

/-- `ParetoChart.isSelectionIdInArray` (lines 720-728): false when the
list or the queried identity is missing, otherwise
`selectionIds.some(c => c.includes(selectionId))`.  The host-issued
`includes` predicate is the parameter `inc`.  -/
def isSelectionIdInArray (inc : ℕ → ℕ → Bool)
    (selectionIds : Option (List ℕ)) (selectionId : Option ℕ) : Bool :=
  match selectionIds, selectionId with
  | none, _ => false
  | _, none => false
  | some ids, some sid => ids.any (fun c => inc c sid)

/-- `ParetoChart.syncSelectionState` (lines 689-718): missing selection
or missing identity list returns with nothing modified; an empty list
sets every bar to the configured opacity; otherwise each bar is solid
when its identity is a member of the list and dimmed otherwise.  -/
def syncSelectionState (inc : ℕ → ℕ → Bool) (configuredOpacity : ℚ)
    (selection : Option (List BarElement)) (selectionIds : Option (List ℕ)) :
    Option (List BarElement) :=
  match selection, selectionIds with
  | none, _ => none
  | some bars, none => some bars
  | some bars, some ids =>
      if ids.length = 0 then
        some (bars.map (setOpacity configuredOpacity))
      else
        some (bars.map (fun e =>
          if isSelectionIdInArray inc (some ids) e.datum.selectionId then
            setOpacity solidOpacity e
          else
            setOpacity transparentOpacity e))

/-- The persistent visual state `update` mutates: the bar elements (and
the fresh-identity supply), the marker circles and the line path
vertices.  -/
structure ChartState where
  bars : List BarElement
  nextId : ℕ
  circles : List CircleElement
  linePath : List (JSNum × JSNum)
deriving DecidableEq, Repr

/-- The state right after the constructor: no bars, circles or line.  -/
def initialChartState : ChartState :=
  { bars := [], nextId := 0, circles := [], linePath := [] }

/-- The effective chart height: `height -= margins.bottom` (line 447).  -/
def stageHeight (options : VisualUpdateOptions) : ℚ :=
  options.viewportHeight - marginBottom

/-- The band scale of lines 470-473, over the data point categories and
the viewport width.  -/
def stageScaleX (options : VisualUpdateOptions) (pts : List BarChartDataPoint) : BandScale :=
  mkBandScale (pts.map (fun d => d.category)) 0 options.viewportWidth

/-- The left value scale of lines 462-464: domain `[0, total]`, range
`[height, top]`.  -/
def stageYScale (options : VisualUpdateOptions) (pts : List BarChartDataPoint) :
    JSNum → JSNum :=
  d3LinearScale (JSNum.fin 0) (computeTotal pts) (stageHeight options) marginTop

/-- The right percent scale of lines 466-468: domain `[0, 100]`, same
range.  -/
def stageYScaleRight (options : VisualUpdateOptions) : JSNum → JSNum :=
  d3LinearScale (JSNum.fin 0) (JSNum.fin 100) (stageHeight options) marginTop

/-- The line vertices of lines 509-516: one per data point at the band's
right edge and the cumulative percent height.  -/
def stageLinePoints (options : VisualUpdateOptions) (pts : List BarChartDataPoint) :
    List (JSNum × JSNum) :=
  (cumulativeSeries (computeTotal pts) (JSNum.fin 0) pts).map (fun el =>
    (optAddBW ((stageScaleX options pts).apply el.category) (stageScaleX options pts).bandwidth,
     stageYScaleRight options (el.cumulative.getD JSNum.nan)))

/-- The state produced by a successful render pass (`p0` is
`barDataPoints[0]` after the cumulative pass): the start vertex and the
line path of lines 518-529, the recreated marker circles of lines
531-544, the by-index bar join of lines 546-573 and 598-600, and the
`syncSelectionState` call of lines 580-583.  -/
def stageResult (st : ChartState) (options : VisualUpdateOptions) (opacityValue : ℚ)
    (inc : ℕ → ℕ → Bool) (managerIds : Option (List ℕ))
    (pts : List BarChartDataPoint) (p0 : BarChartDataPoint) : ChartState :=
  let lineDataPoints := stageLinePoints options pts
  let startPoint := (optToNum ((stageScaleX options pts).apply p0.category),
                     stageYScaleRight options (JSNum.fin 0))
  let circles := lineDataPoints.map (fun xy =>
    { cx := xy.1, cy := xy.2, r := min (stageHeight options) options.viewportWidth / 50 })
  let opacity := opacityValue / 100
  let rendered := renderBars st.bars st.nextId
    (cumulativeSeries (computeTotal pts) (JSNum.fin 0) pts)
    (mkBarAttrs (stageScaleX options pts) (stageYScale options pts) (stageHeight options) opacity)
  { bars := (syncSelectionState inc opacity (some rendered.1) managerIds).getD rendered.1
    nextId := rendered.2
    circles := circles
    linePath := startPoint :: lineDataPoints }

/-- The geometry-and-render tail of `ParetoChart.update` (lines
429-602), for an already-built data point sequence `pts`: the cumulative
pass runs, and reading `barDataPoints[0].category` for the start vertex
(line 518) throws when the data point sequence is empty — otherwise the
pass yields `stageResult`.  `opacityValue` is the persisted
`generalView.opacity` setting and `inc` the host identity's `includes`
predicate.  -/
def renderStage (st : ChartState) (options : VisualUpdateOptions) (opacityValue : ℚ)
    (inc : ℕ → ℕ → Bool) (managerIds : Option (List ℕ))
    (pts : List BarChartDataPoint) : Except JsError ChartState :=
  match (cumulativeSeries (computeTotal pts) (JSNum.fin 0) pts).head? with
  | none => Except.error (JsError.typeError "Cannot read properties of undefined (reading category)")
  | some p0 => Except.ok (stageResult st options opacityValue inc managerIds pts p0)

/-- `ParetoChart.update` proper: build the data points (a throw inside
the builder propagates); evaluate `options.dataViews[0]` for the axis
colors (line 482, a throw when `dataViews` is absent — the scale
construction before it is pure); then run `renderStage`.  -/
def update (st : ChartState) (options : VisualUpdateOptions) (opacityValue : ℚ)
    (inc : ℕ → ℕ → Bool) (managerIds : Option (List ℕ)) :
    Except JsError ChartState :=
  match createSelectorDataPoints options with
  | Except.error e => Except.error e
  | Except.ok pts =>
      match options.dataViews with
      | none => Except.error (JsError.typeError "Cannot read properties of undefined (reading 0)")
      | some _ => renderStage st options opacityValue inc managerIds pts

/-- Equality of `Except` results is decidable (used by concrete
witnesses).  -/
instance {ε α : Type} [DecidableEq ε] [DecidableEq α] : DecidableEq (Except ε α) := fun a b =>
  match a, b with
  | Except.error e, Except.error f =>
      if h : e = f then Decidable.isTrue (by rw [h])
      else Decidable.isFalse (fun hc => h (Except.error.inj hc))
  | Except.ok x, Except.ok y =>
      if h : x = y then Decidable.isTrue (by rw [h])
      else Decidable.isFalse (fun hc => h (Except.ok.inj hc))
  | Except.error _, Except.ok _ => Decidable.isFalse (fun hc => Except.noConfusion hc)
  | Except.ok _, Except.error _ => Decidable.isFalse (fun hc => Except.noConfusion hc)

/-- The rational a computed cumulative percentage carries, 0 when it is
unset or not finite (used to state monotonicity).  -/
def optRat : Option JSNum → ℚ
  | some (JSNum.fin q) => q
  | _ => 0

/-- `optRat` of a data point's cumulative field.  -/
def cumulativeRat (p : BarChartDataPoint) : ℚ := optRat p.cumulative

/-- Shorthand for a finite numeric cell.  -/
def finCell (q : ℚ) : JSVal := JSVal.num (JSNum.fin q)

/-- Structural equality of identities, a concrete `includes` predicate
for witnesses.  -/
def eqIncl (a b : ℕ) : Bool := a == b

/-- The example input of the spec: categories A, B, C with values 10,
30, 60 on a 100 by 105 viewport.  -/
def optsABC : VisualUpdateOptions :=
  mkOptions true ["A", "B", "C"] [finCell 10, finCell 30, finCell 60] 100 105

/-- The spec example's data point sequence, as the builder produces
it.  -/
def ptsABC : List BarChartDataPoint :=
  (createSelectorDataPoints optsABC).toOption.getD []

/-- The state rendered from the spec example (for the idempotence
witness).  -/
def stABC : ChartState :=
  (update initialChartState optsABC 100 eqIncl none).toOption.getD initialChartState

/-- An all-zero input: total 0.  -/
def optsZeroTotal : VisualUpdateOptions :=
  mkOptions true ["A", "B"] [finCell 0, finCell 0] 100 105

/-- Unequal lengths: 3 categories, 2 values.  -/
def optsPadded : VisualUpdateOptions :=
  mkOptions true ["A", "B", "C"] [finCell 10, finCell 30] 100 105

/-- Two data points carrying the same category label.  -/
def optsDupLabel : VisualUpdateOptions :=
  mkOptions true ["A", "A"] [finCell 1, finCell 2] 100 105

/-- An absent query result: `options.dataViews` is `undefined`.  -/
def optsAbsent : VisualUpdateOptions :=
  { dataViews := none, viewportWidth := 100, viewportHeight := 105 }

/-- A malformed query result: the data view carries no categorical
mapping, so the builder returns the empty sequence.  -/
def optsNoCategorical : VisualUpdateOptions :=
  { dataViews := some [{ categorical := none }], viewportWidth := 100, viewportHeight := 105 }

/-- A categories list that is present but holds no category column.  -/
def optsEmptyCategories : VisualUpdateOptions :=
  let categorical : Categorical :=
    { categories := some []
      values := some [{ values := [finCell 1], objects := none }] }
  { dataViews := some [{ categorical := some categorical }]
    viewportWidth := 100
    viewportHeight := 105 }

/-- A values list that is present but holds no value column.  -/
def optsEmptyValueColumns : VisualUpdateOptions :=
  let categorical : Categorical :=
    { categories := some [{ hasSource := true, values := ["A"] }]
      values := some [] }
  { dataViews := some [{ categorical := some categorical }]
    viewportWidth := 100
    viewportHeight := 105 }

/-- The data point `createSelectorDataPoints` builds at index `i` from
category cells `cs` and value cells `vs` when no per-cell objects are
present (a name for the builder's loop output, used to state its
characterisation).  -/
def builtPoint (cs : List String) (vs : List JSVal) (i : ℕ) : BarChartDataPoint :=
  { value := (vs.get? i).getD JSVal.undef
    category := (cs.get? i).getD "undefined"
    index := i
    selectionId := some i
    format := none
    cumulative := none }

/-- A rendered bar for the selection-sync witnesses.  -/
def sampleBar (i : ℕ) (sid : Option ℕ) (label : String) : BarElement :=
  { elemId := i
    datum := { value := finCell 1, category := label, index := i,
               selectionId := sid, format := none, cumulative := none }
    attrs := { x := some 0, y := JSNum.fin 0, width := 10, height := JSNum.fin 10,
               fillOpacity := 1, strokeOpacity := 1 } }

/-- Three rendered bars A, B, C with identities 0, 1, 2.  -/
def sampleBars : List BarElement :=
  [sampleBar 0 (some 0) "A", sampleBar 1 (some 1) "B", sampleBar 2 (some 2) "C"]

/-- Bars where B's identity is missing.  -/
def sampleBarsMissing : List BarElement :=
  [sampleBar 0 (some 0) "A", sampleBar 1 none "B"]

/-! ### Helper lemmas: JavaScript arithmetic -/

theorem jsAdd_nan_left (x : JSNum) : jsAdd JSNum.nan x = JSNum.nan := by
  cases x <;> rfl

theorem jsAdd_nan_right (x : JSNum) : jsAdd x JSNum.nan = JSNum.nan := by
  cases x <;> rfl

theorem jsAdd_fin (a b : ℚ) : jsAdd (JSNum.fin a) (JSNum.fin b) = JSNum.fin (a + b) := rfl

theorem jsMul_nan_left (x : JSNum) : jsMul JSNum.nan x = JSNum.nan := by
  cases x <;> rfl

theorem jsDiv_nan_right (x : JSNum) : jsDiv x JSNum.nan = JSNum.nan := by
  cases x <;> rfl

theorem jsDiv_fin_fin (a b : ℚ) (hb : b ≠ 0) :
    jsDiv (JSNum.fin a) (JSNum.fin b) = JSNum.fin (a / b) := by
  simp [jsDiv, hb]

theorem jsDiv_zero_zero : jsDiv (JSNum.fin 0) (JSNum.fin 0) = JSNum.nan := rfl

/-! ### Helper lemmas: the series total -/

theorem computeTotal_foldl_fin (pts : List BarChartDataPoint)
    (hfin : ∀ p ∈ pts, ∃ q : ℚ, toNumber p.value = JSNum.fin q) :
    ∀ c : ℚ, pts.foldl (fun t p => jsAdd t (toNumber p.value)) (JSNum.fin c)
      = JSNum.fin (c + ratTotal pts) := by
  induction pts with
  | nil => intro c; simp [ratTotal]
  | cons p ps ih =>
      intro c
      obtain ⟨q, hq⟩ := hfin p (List.mem_cons_self p ps)
      have hr : ratValue p = q := by simp [ratValue, hq]
      have ihs := ih (fun x hx => hfin x (List.mem_cons_of_mem p hx)) (c + q)
      simp only [List.foldl_cons, hq, jsAdd_fin, ihs, ratTotal, List.map_cons, List.sum_cons, hr]
      ring_nf

theorem computeTotal_fin (pts : List BarChartDataPoint)
    (hfin : ∀ p ∈ pts, ∃ q : ℚ, toNumber p.value = JSNum.fin q) :
    computeTotal pts = JSNum.fin (ratTotal pts) := by
  have := computeTotal_foldl_fin pts hfin 0
  simpa [computeTotal] using this

theorem foldl_total_nan (pts : List BarChartDataPoint) :
    pts.foldl (fun t p => jsAdd t (toNumber p.value)) JSNum.nan = JSNum.nan := by
  induction pts with
  | nil => rfl
  | cons p ps ih => simpa [jsAdd_nan_left] using ih

theorem computeTotal_nan_of_mem (pts : List BarChartDataPoint)
    (h : ∃ p ∈ pts, toNumber p.value = JSNum.nan) :
    computeTotal pts = JSNum.nan := by
  obtain ⟨p, hp, hnan⟩ := h
  have key : ∀ (l : List BarChartDataPoint) (acc : JSNum), p ∈ l →
      l.foldl (fun t x => jsAdd t (toNumber x.value)) acc = JSNum.nan := by
    intro l
    induction l with
    | nil => intro acc hm; exact absurd hm (List.not_mem_nil p)
    | cons x xs ih =>
        intro acc hm
        rcases List.mem_cons.1 hm with hx | hx
        · subst hx
          simp only [List.foldl_cons, hnan, jsAdd_nan_right]
          exact foldl_total_nan xs
        · exact ih _ hx
  exact key pts _ hp

/-! ### Helper lemmas: the cumulative pass -/

theorem cumulativeSeries_length (total : JSNum) :
    ∀ (c : JSNum) (pts : List BarChartDataPoint),
      (cumulativeSeries total c pts).length = pts.length := by
  intro c pts
  induction pts generalizing c with
  | nil => rfl
  | cons p ps ih => simp [cumulativeSeries, ih]

theorem cumulativeSeries_map_core (total : JSNum) :
    ∀ (c : JSNum) (pts : List BarChartDataPoint),
      (cumulativeSeries total c pts).map (fun p => (p.index, p.category, p.value))
        = pts.map (fun p => (p.index, p.category, p.value)) := by
  intro c pts
  induction pts generalizing c with
  | nil => rfl
  | cons p ps ih => simp [cumulativeSeries, ih]

theorem cumulativeSeries_all_nan_of_start_nan (total : JSNum) :
    ∀ (pts : List BarChartDataPoint),
      ∀ p ∈ cumulativeSeries total JSNum.nan pts, p.cumulative = some JSNum.nan := by
  intro pts
  induction pts with
  | nil => intro p hp; exact absurd hp (List.not_mem_nil p)
  | cons x xs ih =>
      intro p hp
      rw [cumulativeSeries] at hp
      simp only [jsAdd_nan_left] at hp
      rcases List.mem_cons.1 hp with hx | hx
      · rw [hx]
      · exact ih p hx

theorem cumulativeSeries_all_nan_of_total_nan :
    ∀ (c : JSNum) (pts : List BarChartDataPoint),
      ∀ p ∈ cumulativeSeries JSNum.nan c pts, p.cumulative = some JSNum.nan := by
  intro c pts
  induction pts generalizing c with
  | nil => intro p hp; exact absurd hp (List.not_mem_nil p)
  | cons x xs ih =>
      intro p hp
      rw [cumulativeSeries] at hp
      simp only [jsDiv_nan_right, jsMul_nan_left, jsAdd_nan_right] at hp
      rcases List.mem_cons.1 hp with hx | hx
      · rw [hx]
      · exact ih JSNum.nan p hx

theorem cumulativeSeries_all_nan_of_zero_total (pts : List BarChartDataPoint)
    (hzero : ∀ p ∈ pts, toNumber p.value = JSNum.fin 0) :
    ∀ p ∈ cumulativeSeries (JSNum.fin 0) (JSNum.fin 0) pts, p.cumulative = some JSNum.nan := by
  cases pts with
  | nil => intro p hp; exact absurd hp (List.not_mem_nil p)
  | cons x xs =>
      intro p hp
      rw [cumulativeSeries] at hp
      rw [hzero x (List.mem_cons_self x xs)] at hp
      simp only [jsDiv_zero_zero, jsMul_nan_left, jsAdd_nan_right] at hp
      rcases List.mem_cons.1 hp with hx | hx
      · rw [hx]
      · exact cumulativeSeries_all_nan_of_start_nan (JSNum.fin 0) xs p hx

/-! ### Helper lemmas: partial sums -/

theorem partialSum_zero (pts : List BarChartDataPoint) : partialSum pts 0 = 0 := rfl

theorem partialSum_cons (p : BarChartDataPoint) (ps : List BarChartDataPoint) (k : ℕ) :
    partialSum (p :: ps) (k + 1) = ratValue p + partialSum ps k := by
  simp [partialSum, List.take_succ_cons]

theorem partialSum_length (pts : List BarChartDataPoint) :
    partialSum pts pts.length = ratTotal pts := by
  simp [partialSum, ratTotal, List.take_length]

theorem partialSum_le_succ (pts : List BarChartDataPoint)
    (hnn : ∀ p ∈ pts, 0 ≤ ratValue p) (k : ℕ) :
    partialSum pts k ≤ partialSum pts (k + 1) := by
  rw [partialSum, partialSum, List.take_succ]
  rcases h : pts[k]? with _ | p
  · simp
  · have hp : p ∈ pts := List.getElem?_mem h
    simp only [h, Option.toList_some, List.map_append, List.sum_append, List.map_cons,
      List.map_nil, List.sum_cons, List.sum_nil, add_zero]
    have := hnn p hp
    linarith

theorem partialSum_mono (pts : List BarChartDataPoint)
    (hnn : ∀ p ∈ pts, 0 ≤ ratValue p) : Monotone (partialSum pts) :=
  monotone_nat_of_le_succ (partialSum_le_succ pts hnn)

theorem cumulativeSeries_cons (total c : JSNum) (p : BarChartDataPoint)
    (ps : List BarChartDataPoint) :
    cumulativeSeries total c (p :: ps)
      = ({ p with cumulative := some (jsAdd c (jsMul (jsDiv (toNumber p.value) total) (JSNum.fin 100))) })
        :: cumulativeSeries total (jsAdd c (jsMul (jsDiv (toNumber p.value) total) (JSNum.fin 100))) ps := rfl

theorem cumulativeSeries_map_fin (t : ℚ) (ht : t ≠ 0) :
    ∀ (pts : List BarChartDataPoint) (c : ℚ),
      (∀ p ∈ pts, ∃ q : ℚ, toNumber p.value = JSNum.fin q) →
      (cumulativeSeries (JSNum.fin t) (JSNum.fin c) pts).map (fun p => p.cumulative)
        = (List.range pts.length).map
            (fun i => some (JSNum.fin (c + partialSum pts (i + 1) / t * 100))) := by
  intro pts
  induction pts with
  | nil => intro c _; rfl
  | cons p ps ih =>
      intro c hfin
      obtain ⟨q, hq⟩ := hfin p (List.mem_cons_self p ps)
      have hr : ratValue p = q := by simp [ratValue, hq]
      have hstep : jsAdd (JSNum.fin c) (jsMul (jsDiv (toNumber p.value) (JSNum.fin t)) (JSNum.fin 100))
          = JSNum.fin (c + q / t * 100) := by
        rw [hq, jsDiv_fin_fin q t ht]
        rfl
      rw [cumulativeSeries_cons, hstep]
      rw [List.map_cons, ih (c + q / t * 100) (fun x hx => hfin x (List.mem_cons_of_mem p hx))]
      rw [List.length_cons, List.range_succ_eq_map, List.map_cons, List.map_map]
      congr 1
      · rw [partialSum_cons, partialSum_zero, hr]
        norm_num
      · apply List.map_congr_left
        intro a _
        simp only [Function.comp]
        rw [partialSum_cons, hr, add_div q (partialSum ps (a + 1)) t]
        ring_nf

/-! ### Helper lemmas: the data point builder -/

theorem mapExcept_ok_of_fun {α β : Type} (g : α → β) :
    ∀ l : List α, mapExcept (fun a => Except.ok (g a)) l = Except.ok (l.map g) := by
  intro l
  induction l with
  | nil => rfl
  | cons x xs ih => simp [mapExcept, ih]

theorem buildDataPoints_objectsNone (c : CategoryColumn) (vs : List JSVal) :
    buildDataPoints c { values := vs, objects := none }
      = Except.ok ((List.range (max c.values.length vs.length)).map (builtPoint c.values vs)) :=
  mapExcept_ok_of_fun _ _

theorem createSelectorDataPoints_mkOptions (cs : List String) (vs : List JSVal) (w h : ℚ) :
    createSelectorDataPoints (mkOptions true cs vs w h)
      = buildDataPoints { hasSource := true, values := cs } { values := vs, objects := none } := rfl

theorem mkOptions_pts (cs : List String) (vs : List JSVal) (w h : ℚ) :
    createSelectorDataPoints (mkOptions true cs vs w h)
      = Except.ok ((List.range (max cs.length vs.length)).map (builtPoint cs vs)) := by
  rw [createSelectorDataPoints_mkOptions]
  exact buildDataPoints_objectsNone _ _

/-! ### Helper lemmas: the by-index data join -/

theorem renderBars_nil_data (ex : List BarElement) (n : ℕ) (f : BarChartDataPoint → BarAttrs) :
    renderBars ex n [] f = ([], n) := by
  cases ex <;> rfl

theorem renderBars_cons_cons (e : BarElement) (ex : List BarElement) (n : ℕ)
    (p : BarChartDataPoint) (ps : List BarChartDataPoint) (f : BarChartDataPoint → BarAttrs) :
    renderBars (e :: ex) n (p :: ps) f
      = ({ elemId := e.elemId, datum := p, attrs := f p } :: (renderBars ex n ps f).1,
         (renderBars ex n ps f).2) := rfl

theorem renderBars_nil_cons (n : ℕ) (p : BarChartDataPoint) (ps : List BarChartDataPoint)
    (f : BarChartDataPoint → BarAttrs) :
    renderBars [] n (p :: ps) f
      = ({ elemId := n, datum := p, attrs := f p } :: (renderBars [] (n + 1) ps f).1,
         (renderBars [] (n + 1) ps f).2) := rfl

theorem renderBars_map_datum (d : List BarChartDataPoint) :
    ∀ (ex : List BarElement) (n : ℕ) (f : BarChartDataPoint → BarAttrs),
      (renderBars ex n d f).1.map (fun e => e.datum) = d := by
  induction d with
  | nil => intro ex n f; rw [renderBars_nil_data]; rfl
  | cons p ps ih =>
      intro ex n f
      cases ex with
      | nil => rw [renderBars_nil_cons]; simpa using ih [] (n + 1) f
      | cons e ex => rw [renderBars_cons_cons]; simpa using ih ex n f

theorem renderBars_length (d : List BarChartDataPoint) (ex : List BarElement) (n : ℕ)
    (f : BarChartDataPoint → BarAttrs) :
    (renderBars ex n d f).1.length = d.length := by
  have := congrArg List.length (renderBars_map_datum d ex n f)
  simpa using this

theorem renderBars_attrs (d : List BarChartDataPoint) :
    ∀ (ex : List BarElement) (n : ℕ) (f : BarChartDataPoint → BarAttrs),
      ∀ e ∈ (renderBars ex n d f).1, e.attrs = f e.datum := by
  induction d with
  | nil =>
      intro ex n f e he
      rw [renderBars_nil_data] at he
      exact absurd he (List.not_mem_nil e)
  | cons p ps ih =>
      intro ex n f e he
      cases ex with
      | nil =>
          rw [renderBars_nil_cons] at he
          rcases List.mem_cons.1 he with hx | hx
          · rw [hx]
          · exact ih [] (n + 1) f e hx
      | cons e0 ex =>
          rw [renderBars_cons_cons] at he
          rcases List.mem_cons.1 he with hx | hx
          · rw [hx]
          · exact ih ex n f e hx

theorem renderBars_stable (d : List BarChartDataPoint) :
    ∀ (ex1 ex2 : List BarElement) (n : ℕ) (f : BarChartDataPoint → BarAttrs),
      ex2.map (fun e => e.elemId) = (renderBars ex1 n d f).1.map (fun e => e.elemId) →
      renderBars ex2 ((renderBars ex1 n d f).2) d f = renderBars ex1 n d f := by
  induction d with
  | nil =>
      intro ex1 ex2 n f hid
      rw [renderBars_nil_data] at hid ⊢
      cases ex2 with
      | nil => rw [renderBars_nil_data]
      | cons e2 ex2t => simp at hid
  | cons p ps ih =>
      intro ex1 ex2 n f hid
      cases ex1 with
      | cons e ex1t =>
          rw [renderBars_cons_cons] at hid ⊢
          cases ex2 with
          | nil => simp at hid
          | cons e2 ex2t =>
              simp only [List.map_cons, List.cons.injEq] at hid
              obtain ⟨hid0, hids⟩ := hid
              rw [renderBars_cons_cons]
              rw [ih ex1t ex2t n f hids]
              simp [hid0]
      | nil =>
          rw [renderBars_nil_cons] at hid ⊢
          cases ex2 with
          | nil => simp at hid
          | cons e2 ex2t =>
              simp only [List.map_cons, List.cons.injEq] at hid
              obtain ⟨hid0, hids⟩ := hid
              rw [renderBars_cons_cons]
              rw [ih [] ex2t (n + 1) f hids]
              simp [hid0]

/-! ### Helper lemmas: selection sync -/

theorem setOpacity_datum (op : ℚ) (e : BarElement) : (setOpacity op e).datum = e.datum := rfl

theorem setOpacity_elemId (op : ℚ) (e : BarElement) : (setOpacity op e).elemId = e.elemId := rfl

theorem sync_getD_map_elemId (inc : ℕ → ℕ → Bool) (cfg : ℚ) (l : List BarElement)
    (ids : Option (List ℕ)) :
    ((syncSelectionState inc cfg (some l) ids).getD l).map (fun e => e.elemId)
      = l.map (fun e => e.elemId) := by
  cases ids with
  | none => rfl
  | some ids =>
      by_cases hl : ids.length = 0
      · simp [syncSelectionState, hl, List.map_map, Function.comp, setOpacity]
      · simp only [syncSelectionState, hl, if_false, Option.getD_some, List.map_map]
        apply List.map_congr_left
        intro e _
        by_cases hs : isSelectionIdInArray inc (some ids) e.datum.selectionId <;>
          simp [hs, Function.comp, setOpacity]

theorem sync_getD_map_datum (inc : ℕ → ℕ → Bool) (cfg : ℚ) (l : List BarElement)
    (ids : Option (List ℕ)) :
    ((syncSelectionState inc cfg (some l) ids).getD l).map (fun e => e.datum)
      = l.map (fun e => e.datum) := by
  cases ids with
  | none => rfl
  | some ids =>
      by_cases hl : ids.length = 0
      · simp [syncSelectionState, hl, List.map_map, Function.comp, setOpacity]
      · simp only [syncSelectionState, hl, if_false, Option.getD_some, List.map_map]
        apply List.map_congr_left
        intro e _
        by_cases hs : isSelectionIdInArray inc (some ids) e.datum.selectionId <;>
          simp [hs, Function.comp, setOpacity]

/-! ### Helper lemmas: the band scale -/

theorem dedupKeepFirst_foldl (l : List String) :
    ∀ seen : List String, (∀ x ∈ l, x ∉ seen) → l.Nodup →
      l.foldl (fun s x => if x ∈ s then s else s ++ [x]) seen = seen ++ l := by
  induction l with
  | nil => intro seen _ _; simp
  | cons x xs ih =>
      intro seen hdisj hnd
      have hx : x ∉ seen := hdisj x (List.mem_cons_self x xs)
      have hnd' := List.nodup_cons.1 hnd
      rw [List.foldl_cons, if_neg hx]
      have hdisj' : ∀ y ∈ xs, y ∉ seen ++ [x] := by
        intro y hy hmem
        rcases List.mem_append.1 hmem with hm | hm
        · exact hdisj y (List.mem_cons_of_mem x hy) hm
        · have : y = x := by simpa using hm
          exact hnd'.1 (this ▸ hy)
      rw [ih (seen ++ [x]) hdisj' hnd'.2]
      simp

theorem dedupKeepFirst_of_nodup (l : List String) (h : l.Nodup) : dedupKeepFirst l = l := by
  have := dedupKeepFirst_foldl l [] (by simp) h
  simpa [dedupKeepFirst] using this

theorem idxOf_get (l : List String) (hnd : l.Nodup) :
    ∀ (i : ℕ) (hi : i < l.length), idxOf l (l.get ⟨i, hi⟩) = some i := by
  induction l with
  | nil => intro i hi; simp at hi
  | cons y ys ih =>
      intro i hi
      have hnd' := List.nodup_cons.1 hnd
      cases i with
      | zero => simp [idxOf]
      | succ j =>
          have hj : j < ys.length := Nat.lt_of_succ_lt_succ (by simpa using hi)
          have hget : (y :: ys).get ⟨j + 1, hi⟩ = ys.get ⟨j, hj⟩ := rfl
          have hy : ¬ y = (y :: ys).get ⟨j + 1, hi⟩ := by
            intro he
            exact hnd'.1 (by rw [hget] at he; exact he ▸ ys.get_mem j hj)
          rw [idxOf, if_neg hy, hget, ih hnd'.2 j hj]
          rfl

theorem mkBandScale_domain (dom : List String) (r0 r1 : ℚ) :
    (mkBandScale dom r0 r1).domain = dedupKeepFirst dom := rfl

theorem mkBandScale_apply_get (dom : List String) (r0 r1 : ℚ) (hnd : dom.Nodup)
    (i : ℕ) (hi : i < dom.length) :
    (mkBandScale dom r0 r1).apply (dom.get ⟨i, hi⟩)
      = some ((mkBandScale dom r0 r1).start + (mkBandScale dom r0 r1).step * i) := by
  rw [BandScale.apply, mkBandScale_domain, dedupKeepFirst_of_nodup dom hnd]
  rw [idxOf_get dom hnd i hi]
  rfl

theorem mapExcept_ok_length {α β : Type} (f : α → Except JsError β) :
    ∀ (l : List α) (out : List β), mapExcept f l = Except.ok out → out.length = l.length := by
  intro l
  induction l with
  | nil =>
      intro out h
      rw [mapExcept] at h
      rw [← Except.ok.inj h]
      rfl
  | cons x xs ih =>
      intro out h
      rw [mapExcept] at h
      cases hfx : f x with
      | error e => rw [hfx] at h; exact Except.noConfusion h
      | ok y =>
          rw [hfx] at h
          cases hxs : mapExcept f xs with
          | error e => rw [hxs] at h; exact Except.noConfusion h
          | ok ys =>
              rw [hxs] at h
              rw [← Except.ok.inj h]
              simp [ih ys hxs]

theorem mapExcept_ok_getElem {α β : Type} (f : α → Except JsError β) :
    ∀ (l : List α) (out : List β), mapExcept f l = Except.ok out →
      ∀ (k : ℕ) (hk : k < l.length) (hk2 : k < out.length),
        f (l.get ⟨k, hk⟩) = Except.ok (out.get ⟨k, hk2⟩) := by
  intro l
  induction l with
  | nil => intro out h k hk hk2; simp at hk
  | cons x xs ih =>
      intro out h k hk hk2
      rw [mapExcept] at h
      cases hfx : f x with
      | error e => rw [hfx] at h; exact Except.noConfusion h
      | ok y =>
          rw [hfx] at h
          cases hxs : mapExcept f xs with
          | error e => rw [hxs] at h; exact Except.noConfusion h
          | ok ys =>
              rw [hxs] at h
              have hout : y :: ys = out := Except.ok.inj h
              subst hout
              cases k with
              | zero => simpa using hfx
              | succ j =>
                  have hj : j < xs.length := Nat.lt_of_succ_lt_succ (by simpa using hk)
                  have hj2 : j < ys.length := Nat.lt_of_succ_lt_succ (by simpa using hk2)
                  exact ih ys hxs j hj hj2

/-- Everything `createSelectorDataPoints` can return `ok` came out of
`buildDataPoints`, whose point at position `i` carries `index := i`,
`selectionId := some i`, the `i`-th value cell (or `undefined`) and the
`i`-th category cell (or the string "undefined").  -/
theorem createSelectorDataPoints_fields (options : VisualUpdateOptions)
    (pts : List BarChartDataPoint)
    (h : createSelectorDataPoints options = Except.ok pts) :
    ∀ (i : ℕ) (hi : i < pts.length),
      (pts.get ⟨i, hi⟩).index = i ∧ (pts.get ⟨i, hi⟩).selectionId = some i := by
  have main : ∀ (c : CategoryColumn) (v : ValueColumn),
      buildDataPoints c v = Except.ok pts →
      ∀ (i : ℕ) (hi : i < pts.length),
        (pts.get ⟨i, hi⟩).index = i ∧ (pts.get ⟨i, hi⟩).selectionId = some i := by
    intro c v hb i hi
    have hlen := mapExcept_ok_length _ _ _ hb
    have hik : i < (List.range (max c.values.length v.values.length)).length := by
      rw [← hlen]; exact hi
    have hget := mapExcept_ok_getElem _ _ _ hb i hik hi
    have hrange : (List.range (max c.values.length v.values.length)).get ⟨i, hik⟩ = i := by
      simp
    rw [hrange] at hget
    cases hf : formatAt v.objects i with
    | error e => rw [hf] at hget; exact Except.noConfusion hget
    | ok fmt =>
        rw [hf] at hget
        have := Except.ok.inj hget
        constructor
        · rw [← this]
        · rw [← this]
  have vacuous : pts = [] →
      ∀ (i : ℕ) (hi : i < pts.length),
        (pts.get ⟨i, hi⟩).index = i ∧ (pts.get ⟨i, hi⟩).selectionId = some i := by
    intro he i hi
    rw [he] at hi
    simp at hi
  unfold createSelectorDataPoints at h
  repeat' split at h
  all_goals
    first
      | exact vacuous (Except.ok.inj h).symm
      | exact Except.noConfusion h
      | exact main _ _ h

/-! ### Helper lemmas: the render stage -/

theorem renderStage_some (st : ChartState) (options : VisualUpdateOptions) (oq : ℚ)
    (inc : ℕ → ℕ → Bool) (mids : Option (List ℕ)) (pts : List BarChartDataPoint)
    (p0 : BarChartDataPoint)
    (hh : (cumulativeSeries (computeTotal pts) (JSNum.fin 0) pts).head? = some p0) :
    renderStage st options oq inc mids pts
      = Except.ok (stageResult st options oq inc mids pts p0) := by
  unfold renderStage
  rw [hh]

theorem renderStage_none (st : ChartState) (options : VisualUpdateOptions) (oq : ℚ)
    (inc : ℕ → ℕ → Bool) (mids : Option (List ℕ)) (pts : List BarChartDataPoint)
    (hh : (cumulativeSeries (computeTotal pts) (JSNum.fin 0) pts).head? = none) :
    renderStage st options oq inc mids pts
      = Except.error (JsError.typeError "Cannot read properties of undefined (reading category)") := by
  unfold renderStage
  rw [hh]

theorem stageResult_bars (st : ChartState) (options : VisualUpdateOptions) (oq : ℚ)
    (inc : ℕ → ℕ → Bool) (mids : Option (List ℕ)) (pts : List BarChartDataPoint)
    (p0 : BarChartDataPoint) :
    (stageResult st options oq inc mids pts p0).bars
      = (syncSelectionState inc (oq / 100)
          (some (renderBars st.bars st.nextId
            (cumulativeSeries (computeTotal pts) (JSNum.fin 0) pts)
            (mkBarAttrs (stageScaleX options pts) (stageYScale options pts)
              (stageHeight options) (oq / 100))).1) mids).getD
          (renderBars st.bars st.nextId
            (cumulativeSeries (computeTotal pts) (JSNum.fin 0) pts)
            (mkBarAttrs (stageScaleX options pts) (stageYScale options pts)
              (stageHeight options) (oq / 100))).1 := rfl

theorem stageResult_nextId (st : ChartState) (options : VisualUpdateOptions) (oq : ℚ)
    (inc : ℕ → ℕ → Bool) (mids : Option (List ℕ)) (pts : List BarChartDataPoint)
    (p0 : BarChartDataPoint) :
    (stageResult st options oq inc mids pts p0).nextId
      = (renderBars st.bars st.nextId
          (cumulativeSeries (computeTotal pts) (JSNum.fin 0) pts)
          (mkBarAttrs (stageScaleX options pts) (stageYScale options pts)
            (stageHeight options) (oq / 100))).2 := rfl

theorem stageResult_congr (st1 st2 : ChartState) (options : VisualUpdateOptions) (oq : ℚ)
    (inc : ℕ → ℕ → Bool) (mids : Option (List ℕ)) (pts : List BarChartDataPoint)
    (p0 : BarChartDataPoint)
    (hb : renderBars st1.bars st1.nextId
            (cumulativeSeries (computeTotal pts) (JSNum.fin 0) pts)
            (mkBarAttrs (stageScaleX options pts) (stageYScale options pts)
              (stageHeight options) (oq / 100))
          = renderBars st2.bars st2.nextId
            (cumulativeSeries (computeTotal pts) (JSNum.fin 0) pts)
            (mkBarAttrs (stageScaleX options pts) (stageYScale options pts)
              (stageHeight options) (oq / 100))) :
    stageResult st1 options oq inc mids pts p0 = stageResult st2 options oq inc mids pts p0 := by
  simp only [stageResult]
  rw [hb]

theorem stageResult_idem (st : ChartState) (options : VisualUpdateOptions) (oq : ℚ)
    (inc : ℕ → ℕ → Bool) (mids : Option (List ℕ)) (pts : List BarChartDataPoint)
    (p0 : BarChartDataPoint) :
    stageResult (stageResult st options oq inc mids pts p0) options oq inc mids pts p0
      = stageResult st options oq inc mids pts p0 := by
  apply stageResult_congr
  rw [stageResult_nextId]
  apply renderBars_stable
  rw [stageResult_bars]
  exact sync_getD_map_elemId inc (oq / 100) _ mids

theorem renderStage_ok_of_ne_nil (st : ChartState) (options : VisualUpdateOptions) (oq : ℚ)
    (inc : ℕ → ℕ → Bool) (mids : Option (List ℕ)) (pts : List BarChartDataPoint)
    (hne : pts ≠ []) :
    ∃ st2, renderStage st options oq inc mids pts = Except.ok st2
      ∧ st2.bars.map (fun e => e.datum)
          = cumulativeSeries (computeTotal pts) (JSNum.fin 0) pts := by
  cases hh : (cumulativeSeries (computeTotal pts) (JSNum.fin 0) pts).head? with
  | none =>
      exfalso
      have h0 : cumulativeSeries (computeTotal pts) (JSNum.fin 0) pts = [] :=
        List.head?_eq_none_iff.1 hh
      have hl := cumulativeSeries_length (computeTotal pts) (JSNum.fin 0) pts
      rw [h0] at hl
      exact hne (List.length_eq_zero.1 hl.symm)
  | some p0 =>
      refine ⟨stageResult st options oq inc mids pts p0,
        renderStage_some st options oq inc mids pts p0 hh, ?_⟩
      rw [stageResult_bars, sync_getD_map_datum]
      exact renderBars_map_datum _ _ _ _

theorem update_eq_renderStage (st : ChartState) (options : VisualUpdateOptions) (oq : ℚ)
    (inc : ℕ → ℕ → Bool) (mids : Option (List ℕ)) (pts : List BarChartDataPoint)
    (hb : createSelectorDataPoints options = Except.ok pts)
    (dvs : List DataView) (hdv : options.dataViews = some dvs) :
    update st options oq inc mids = renderStage st options oq inc mids pts := by
  unfold update
  rw [hb, hdv]

/-! ### The claims -/

/-- C3 (code_bug evidence): for inputs whose data point sequence is
empty, `update` does not degrade to an empty render — it throws.  With
`dataViews` absent it throws reading `options.dataViews[0]` (line 482);
with a data view that has no categorical mapping the builder duly
returns the empty sequence, and `update` then throws reading
`this.barDataPoints[0].category` (line 518).  -/
theorem C3_update_throws_on_empty :
    update initialChartState optsAbsent 100 eqIncl none
        = Except.error (JsError.typeError "Cannot read properties of undefined (reading 0)")
    ∧ createSelectorDataPoints optsNoCategorical = Except.ok []
    ∧ update initialChartState optsNoCategorical 100 eqIncl none
        = Except.error (JsError.typeError "Cannot read properties of undefined (reading category)") :=
  ⟨rfl, rfl, rfl⟩

/-- C5 (code_bug evidence): `createSelectorDataPoints` throws instead of
returning the empty sequence when the categories list is present but
holds no category column (the guard reads `categories[0].source`
without checking `categories[0]`), and likewise when the values list is
present but holds no value column (the loop bound reads
`dataValue.values.length` with `dataValue` undefined).  -/
theorem C5_builder_throws :
    createSelectorDataPoints optsEmptyCategories
        = Except.error (JsError.typeError "Cannot read properties of undefined (reading source)")
    ∧ createSelectorDataPoints optsEmptyValueColumns
        = Except.error (JsError.typeError "Cannot read properties of undefined (reading values)") :=
  ⟨rfl, rfl⟩

/-- C9: when the bar selection or the identity list is missing,
`syncSelectionState` returns immediately and no element's opacity
styles are modified (the selection is returned unchanged).  -/
theorem C9_missing_arguments (inc : ℕ → ℕ → Bool) (cfg : ℚ)
    (selection : Option (List BarElement)) (selectionIds : Option (List ℕ))
    (h : selection = none ∨ selectionIds = none) :
    syncSelectionState inc cfg selection selectionIds = selection := by
  rcases h with h | h
  · rw [h]; cases selectionIds <;> rfl
  · rw [h]; cases selection <;> rfl

/-- C9 witness: the guard at a concrete missing selection and a concrete
missing identity list.  -/
theorem C9_witness :
    syncSelectionState eqIncl 1 none (some [1]) = none
    ∧ syncSelectionState eqIncl 1 (some sampleBars) none = some sampleBars :=
  ⟨C9_missing_arguments eqIncl 1 none (some [1]) (Or.inl rfl),
   C9_missing_arguments eqIncl 1 (some sampleBars) none (Or.inr rfl)⟩

/-- C10: `isSelectionIdInArray` is false when the identity list or the
queried identity is missing; hence under a non-empty selection a bar
whose own `selectionId` is missing always receives the dimmed opacity
0.4, never the solid one.  -/
theorem C10_missing_identity (inc : ℕ → ℕ → Bool) (cfg : ℚ) (bars : List BarElement)
    (ids : List ℕ) (sid : Option ℕ) (hne : ids ≠ []) :
    isSelectionIdInArray inc none sid = false
    ∧ isSelectionIdInArray inc (some ids) none = false
    ∧ (∀ e ∈ (syncSelectionState inc cfg (some bars) (some ids)).getD [],
        e.datum.selectionId = none →
          e.attrs.fillOpacity = transparentOpacity
          ∧ e.attrs.strokeOpacity = transparentOpacity) := by
  refine ⟨by cases sid <;> rfl, rfl, ?_⟩
  intro e he hid
  have hlen : ¬ ids.length = 0 := by simpa [List.length_eq_zero] using hne
  simp only [syncSelectionState, hlen, if_false, Option.getD_some] at he
  obtain ⟨b, hb, rfl⟩ := List.mem_map.1 he
  have hbid : b.datum.selectionId = none := by
    by_cases hs : isSelectionIdInArray inc (some ids) b.datum.selectionId <;>
      simpa [hs, setOpacity] using hid
  have hfalse : isSelectionIdInArray inc (some ids) b.datum.selectionId = false := by
    rw [hbid]
    rfl
  simp [hfalse, setOpacity]

/-- C10 witness: a bar with a missing identity under the non-empty
selection `[5]` is dimmed.  -/
theorem C10_witness :
    isSelectionIdInArray eqIncl none (some 1) = false
    ∧ isSelectionIdInArray eqIncl (some [5]) none = false
    ∧ (∀ e ∈ (syncSelectionState eqIncl (1/2) (some sampleBarsMissing) (some [5])).getD [],
        e.datum.selectionId = none →
          e.attrs.fillOpacity = transparentOpacity
          ∧ e.attrs.strokeOpacity = transparentOpacity) :=
  C10_missing_identity eqIncl (1/2) sampleBarsMissing [5] (some 1) (by decide)

/-- C6: with a non-empty identity list every bar whose identity is a
member (per the `includes` predicate) gets fill and stroke opacity
`Config.solidOpacity = 1` and every other bar gets
`Config.transparentOpacity = 0.4`; with an empty list every bar gets
the configured opacity.  -/
theorem C6_sync_opacities (inc : ℕ → ℕ → Bool) (cfg : ℚ) (bars : List BarElement)
    (ids : List ℕ) (hne : ids ≠ []) :
    (((syncSelectionState inc cfg (some bars) (some ids)).getD []).map
        (fun e => (e.attrs.fillOpacity, e.attrs.strokeOpacity))
      = bars.map (fun e =>
          if isSelectionIdInArray inc (some ids) e.datum.selectionId
          then (solidOpacity, solidOpacity)
          else (transparentOpacity, transparentOpacity)))
    ∧ (((syncSelectionState inc cfg (some bars) (some [])).getD []).map
        (fun e => (e.attrs.fillOpacity, e.attrs.strokeOpacity))
      = bars.map (fun _ => (cfg, cfg)))
    ∧ solidOpacity = 1 ∧ transparentOpacity = 4/10 := by
  refine ⟨?_, ?_, rfl, rfl⟩
  · have hlen : ¬ ids.length = 0 := by simpa [List.length_eq_zero] using hne
    simp only [syncSelectionState, hlen, if_false, Option.getD_some, List.map_map]
    apply List.map_congr_left
    intro e _
    by_cases hs : isSelectionIdInArray inc (some ids) e.datum.selectionId <;>
      simp [hs, Function.comp, setOpacity]
  · show (bars.map (setOpacity cfg)).map (fun e => (e.attrs.fillOpacity, e.attrs.strokeOpacity))
        = bars.map (fun _ => (cfg, cfg))
    rw [List.map_map]
    apply List.map_congr_left
    intro e _
    rfl

section

attribute [local semireducible] Rat.mul Rat.inv Rat.add Rat.sub

/-- C6 witness: bars A, B, C with only B's identity selected come out
dimmed, solid, dimmed; an empty selection restores the configured
opacity 3/4 everywhere.  -/
theorem C6_witness :
    (((syncSelectionState eqIncl (3/4) (some sampleBars) (some [1])).getD []).map
        (fun e => (e.attrs.fillOpacity, e.attrs.strokeOpacity))
      = sampleBars.map (fun e =>
          if isSelectionIdInArray eqIncl (some [1]) e.datum.selectionId
          then (solidOpacity, solidOpacity)
          else (transparentOpacity, transparentOpacity)))
    ∧ (((syncSelectionState eqIncl (3/4) (some sampleBars) (some [1])).getD []).map
        (fun e => (e.attrs.fillOpacity, e.attrs.strokeOpacity))
      = [(transparentOpacity, transparentOpacity), (solidOpacity, solidOpacity),
         (transparentOpacity, transparentOpacity)])
    ∧ (((syncSelectionState eqIncl (3/4) (some sampleBars) (some [])).getD []).map
        (fun e => (e.attrs.fillOpacity, e.attrs.strokeOpacity))
      = sampleBars.map (fun _ => (3/4, 3/4))) :=
  ⟨(C6_sync_opacities eqIncl (3/4) sampleBars [1] (by decide)).1,
   by decide,
   (C6_sync_opacities eqIncl (3/4) sampleBars [1] (by decide)).2.1⟩

end

/-- C2: for a non-empty data point sequence of finite non-negative
values with positive total, the cumulative pass of `update` assigns the
point at position `i` the cumulative percent
`(sum of the first i+1 values) / total * 100`; the percents are
non-decreasing in index order, and the final one is exactly 100 (the
rational embedding carries no rounding, so "within floating tolerance"
is met exactly).  -/
theorem C2_cumulative_percentages (pts : List BarChartDataPoint)
    (hne : pts ≠ [])
    (hfin : ∀ p ∈ pts, isFinNonneg p = true)
    (hpos : 0 < ratTotal pts) :
    ((cumulativeSeries (computeTotal pts) (JSNum.fin 0) pts).map (fun p => p.cumulative)
        = (List.range pts.length).map
            (fun i => some (JSNum.fin (partialSum pts (i + 1) / ratTotal pts * 100))))
    ∧ List.Pairwise (fun a b => cumulativeRat a ≤ cumulativeRat b)
        (cumulativeSeries (computeTotal pts) (JSNum.fin 0) pts)
    ∧ ((cumulativeSeries (computeTotal pts) (JSNum.fin 0) pts).map (fun p => p.cumulative)).getLast?
        = some (some (JSNum.fin 100)) := by
  have hfin2 : ∀ p ∈ pts, ∃ q : ℚ, toNumber p.value = JSNum.fin q := by
    intro p hp
    have := hfin p hp
    unfold isFinNonneg at this
    rcases hv : p.value with _ | _ | x
    · rw [hv] at this; exact absurd this (by simp)
    · exact ⟨0, rfl⟩
    · rcases x with q | _ | _ | _
      · exact ⟨q, rfl⟩
      · rw [hv] at this; exact absurd this (by simp)
      · rw [hv] at this; exact absurd this (by simp)
      · rw [hv] at this; exact absurd this (by simp)
  have hnn : ∀ p ∈ pts, 0 ≤ ratValue p := by
    intro p hp
    have := hfin p hp
    unfold isFinNonneg at this
    rcases hv : p.value with _ | _ | x
    · rw [hv] at this; exact absurd this (by simp)
    · simp [ratValue, toNumber, hv]
    · rcases x with q | _ | _ | _
      · rw [hv] at this
        simp only [decide_eq_true_eq] at this
        simpa [ratValue, toNumber, hv] using this
      · rw [hv] at this; exact absurd this (by simp)
      · rw [hv] at this; exact absurd this (by simp)
      · rw [hv] at this; exact absurd this (by simp)
  have ht : ratTotal pts ≠ 0 := ne_of_gt hpos
  have htot : computeTotal pts = JSNum.fin (ratTotal pts) := computeTotal_fin pts hfin2
  have E1 : (cumulativeSeries (computeTotal pts) (JSNum.fin 0) pts).map (fun p => p.cumulative)
      = (List.range pts.length).map
          (fun i => some (JSNum.fin (partialSum pts (i + 1) / ratTotal pts * 100))) := by
    rw [htot]
    rw [cumulativeSeries_map_fin (ratTotal pts) ht pts 0 hfin2]
    apply List.map_congr_left
    intro a _
    norm_num
  refine ⟨E1, ?_, ?_⟩
  · apply List.pairwise_map.1
    have hcomp : (cumulativeSeries (computeTotal pts) (JSNum.fin 0) pts).map cumulativeRat
        = ((cumulativeSeries (computeTotal pts) (JSNum.fin 0) pts).map
            (fun p => p.cumulative)).map optRat := by
      rw [List.map_map]
      rfl
    rw [hcomp, E1, List.map_map]
    apply List.pairwise_map.2
    refine List.Pairwise.imp (fun {a b} hab => ?_) (List.pairwise_lt_range pts.length)
    show optRat (some (JSNum.fin (partialSum pts (a + 1) / ratTotal pts * 100)))
        ≤ optRat (some (JSNum.fin (partialSum pts (b + 1) / ratTotal pts * 100)))
    have h2 : partialSum pts (a + 1) / ratTotal pts * 100
        ≤ partialSum pts (b + 1) / ratTotal pts * 100 := by
      gcongr
      exact partialSum_mono pts hnn (by omega)
    simpa [optRat] using h2
  · rw [E1, List.getLast?_map]
    have hlen : 0 < pts.length := by
      cases pts with
      | nil => exact absurd rfl hne
      | cons a l => simp
    have hrange : (List.range pts.length).getLast? = some (pts.length - 1) := by
      rw [List.getLast?_eq_getElem?, List.length_range]
      rw [List.getElem?_range (by omega)]
    rw [hrange]
    have hsucc : pts.length - 1 + 1 = pts.length := Nat.succ_pred_eq_of_pos hlen
    simp only [Option.map]
    rw [hsucc, partialSum_length, div_self ht]
    norm_num

section

attribute [local semireducible] Rat.mul Rat.inv Rat.add Rat.sub

/-- C2 witness: the spec's example categories A, B, C with values 10,
30, 60 — total 100 — yield cumulative percents 10, 40, 100.  -/
theorem C2_witness :
    List.Pairwise (fun a b => cumulativeRat a ≤ cumulativeRat b)
        (cumulativeSeries (computeTotal ptsABC) (JSNum.fin 0) ptsABC)
    ∧ (cumulativeSeries (computeTotal ptsABC) (JSNum.fin 0) ptsABC).map (fun p => p.cumulative)
        = [some (JSNum.fin 10), some (JSNum.fin 40), some (JSNum.fin 100)] :=
  ⟨(C2_cumulative_percentages ptsABC (by decide) (by decide) (by decide)).2.1,
   by decide⟩

end

/-- C1 (amended): when every value cell is numerically 0 — the one way a
sequence of non-negative values totals 0 — the update completes without
any exception, but every data point's cumulative percent is NaN (the
code divides by the zero total, `0/0*100` is NaN and NaN propagates
through the running sum), not the 0 the spec's policy calls for.  -/
theorem C1_zero_total (st : ChartState) (cs : List String) (vs : List JSVal)
    (w h oq : ℚ) (inc : ℕ → ℕ → Bool) (mids : Option (List ℕ))
    (hne : cs ≠ []) (hlen : cs.length ≤ vs.length)
    (hzero : ∀ v ∈ vs, toNumber v = JSNum.fin 0) :
    ∃ pts st2, createSelectorDataPoints (mkOptions true cs vs w h) = Except.ok pts
      ∧ computeTotal pts = JSNum.fin 0
      ∧ update st (mkOptions true cs vs w h) oq inc mids = Except.ok st2
      ∧ ∀ e ∈ st2.bars, e.datum.cumulative = some JSNum.nan := by
  have hpts := mkOptions_pts cs vs w h
  set pts := (List.range (max cs.length vs.length)).map (builtPoint cs vs) with hpdef
  have hmax : max cs.length vs.length = vs.length := max_eq_right hlen
  have hz : ∀ p ∈ pts, toNumber p.value = JSNum.fin 0 := by
    intro p hp
    rw [hpdef] at hp
    obtain ⟨i, hi, rfl⟩ := List.mem_map.1 hp
    have hiv : i < vs.length := by
      have := List.mem_range.1 hi
      omega
    show toNumber ((vs.get? i).getD JSVal.undef) = JSNum.fin 0
    rw [List.get?_eq_get hiv, Option.getD_some]
    exact hzero _ (vs.get_mem i hiv)
  have hfin2 : ∀ p ∈ pts, ∃ q : ℚ, toNumber p.value = JSNum.fin q :=
    fun p hp => ⟨0, hz p hp⟩
  have hrt : ratTotal pts = 0 := by
    unfold ratTotal
    apply List.sum_eq_zero
    intro x hx
    obtain ⟨p, hp, rfl⟩ := List.mem_map.1 hx
    simp [ratValue, hz p hp]
  have htot : computeTotal pts = JSNum.fin 0 := by
    rw [computeTotal_fin pts hfin2, hrt]
  have hcs0 : 0 < cs.length := List.length_pos.2 hne
  have hlen0 : 0 < pts.length := by
    rw [hpdef]
    simp only [List.length_map, List.length_range]
    omega
  have hne2 : pts ≠ [] := by
    intro hcon
    rw [hcon] at hlen0
    simp at hlen0
  obtain ⟨st2, hst2, hbars⟩ :=
    renderStage_ok_of_ne_nil st (mkOptions true cs vs w h) oq inc mids pts hne2
  have hupd : update st (mkOptions true cs vs w h) oq inc mids = Except.ok st2 := by
    rw [update_eq_renderStage st (mkOptions true cs vs w h) oq inc mids pts hpts _ rfl]
    exact hst2
  refine ⟨pts, st2, hpts, htot, hupd, ?_⟩
  intro e he
  have hmem : e.datum ∈ st2.bars.map (fun e => e.datum) := List.mem_map_of_mem _ he
  rw [hbars, htot] at hmem
  exact cumulativeSeries_all_nan_of_zero_total pts hz e.datum hmem

/-- C4 (amended): the builder does produce `max(m, n)` data points,
right-padding the shorter side (an absent value cell, an "undefined"
category label); but when the values side is shorter the absent value
is NOT treated as 0 — it turns the series total into NaN and with it
every cumulative percent.  -/
theorem C4_padding (cs : List String) (vs : List JSVal) (w h : ℚ) :
    ∃ pts, createSelectorDataPoints (mkOptions true cs vs w h) = Except.ok pts
      ∧ pts.length = max cs.length vs.length
      ∧ (∀ (i : ℕ) (hi : i < pts.length), vs.length ≤ i →
          (pts.get ⟨i, hi⟩).value = JSVal.undef)
      ∧ (∀ (i : ℕ) (hi : i < pts.length), cs.length ≤ i →
          (pts.get ⟨i, hi⟩).category = "undefined")
      ∧ (vs.length < cs.length →
          computeTotal pts = JSNum.nan
          ∧ ∀ p ∈ cumulativeSeries (computeTotal pts) (JSNum.fin 0) pts,
              p.cumulative = some JSNum.nan) := by
  have hpts := mkOptions_pts cs vs w h
  set pts := (List.range (max cs.length vs.length)).map (builtPoint cs vs) with hpdef
  have hlen : pts.length = max cs.length vs.length := by
    rw [hpdef]
    simp
  have hget : ∀ (i : ℕ) (hi : i < pts.length), pts.get ⟨i, hi⟩ = builtPoint cs vs i := by
    intro i hi
    have him : i < max cs.length vs.length := by rw [← hlen]; exact hi
    have h1 : pts[i]? = some (pts.get ⟨i, hi⟩) := by
      rw [List.get_eq_getElem]
      exact (List.getElem?_eq_getElem hi).symm ▸ rfl
    have h2 : pts[i]? = some (builtPoint cs vs i) := by
      rw [hpdef, List.getElem?_map, List.getElem?_range him]
      rfl
    rw [h1] at h2
    exact Option.some.inj h2
  refine ⟨pts, hpts, hlen, ?_, ?_, ?_⟩
  · intro i hi hvs
    rw [hget i hi]
    show (vs.get? i).getD JSVal.undef = JSVal.undef
    rw [List.get?_eq_none.2 hvs]
    rfl
  · intro i hi hcs
    rw [hget i hi]
    show (cs.get? i).getD "undefined" = "undefined"
    rw [List.get?_eq_none.2 hcs]
    rfl
  · intro hvc
    have hi : vs.length < pts.length := by
      rw [hlen]
      omega
    have hmem : pts.get ⟨vs.length, hi⟩ ∈ pts := pts.get_mem vs.length hi
    have hu : toNumber (pts.get ⟨vs.length, hi⟩).value = JSNum.nan := by
      rw [hget _ hi]
      show toNumber ((vs.get? vs.length).getD JSVal.undef) = JSNum.nan
      rw [List.get?_eq_none.2 (le_refl _)]
      rfl
    have htot : computeTotal pts = JSNum.nan :=
      computeTotal_nan_of_mem pts ⟨_, hmem, hu⟩
    refine ⟨htot, ?_⟩
    rw [htot]
    exact cumulativeSeries_all_nan_of_total_nan (JSNum.fin 0) pts

section

attribute [local semireducible] Rat.mul Rat.inv Rat.add Rat.sub

/-- C1 counterexample: with both values 0 (total 0) the update succeeds
but assigns cumulative percent NaN to both points — not 0 as the claim
states.  -/
theorem C1_counterexample :
    ((update initialChartState optsZeroTotal 100 eqIncl none).toOption.map
        (fun st => st.bars.map (fun e => e.datum.cumulative))
      = some [some JSNum.nan, some JSNum.nan])
    ∧ some JSNum.nan ≠ some (JSNum.fin 0) :=
  ⟨by decide, by decide⟩

/-- C1 witness: the amended claim at the concrete all-zero input.  -/
theorem C1_witness :
    ∃ pts st2, createSelectorDataPoints (mkOptions true ["A", "B"] [finCell 0, finCell 0] 100 105)
        = Except.ok pts
      ∧ computeTotal pts = JSNum.fin 0
      ∧ update initialChartState (mkOptions true ["A", "B"] [finCell 0, finCell 0] 100 105)
          100 eqIncl none = Except.ok st2
      ∧ ∀ e ∈ st2.bars, e.datum.cumulative = some JSNum.nan :=
  C1_zero_total initialChartState ["A", "B"] [finCell 0, finCell 0] 100 105 100 eqIncl none
    (by decide) (by decide) (by decide)

/-- C4 counterexample: 3 categories with 2 values produce 3 points, but
the padded absent value poisons the total to NaN (the claim says it
counts as 0, which would give total 40 and percents 25, 100, 100).  -/
theorem C4_counterexample :
    ((createSelectorDataPoints optsPadded).map (fun pts =>
        (pts.length, computeTotal pts,
         (cumulativeSeries (computeTotal pts) (JSNum.fin 0) pts).map (fun p => p.cumulative)))
      = Except.ok (3, JSNum.nan, [some JSNum.nan, some JSNum.nan, some JSNum.nan]))
    ∧ JSNum.nan ≠ JSNum.fin 40
    ∧ some JSNum.nan ≠ some (JSNum.fin 25) :=
  ⟨by decide, by decide, by decide⟩

end

/-- C7: `update` is idempotent — a second call with identical inputs
(same data, viewport, settings and selection state) reproduces the
resulting chart state exactly: the bar element set keeps its size, its
element identities (no element is created or duplicated) and every
per-element attribute, and the circles and line path are rebuilt
identically.  -/
theorem C7_idempotent (st st1 : ChartState) (options : VisualUpdateOptions) (oq : ℚ)
    (inc : ℕ → ℕ → Bool) (mids : Option (List ℕ))
    (h : update st options oq inc mids = Except.ok st1) :
    update st1 options oq inc mids = Except.ok st1 := by
  unfold update at h ⊢
  cases hc : createSelectorDataPoints options with
  | error e =>
      rw [hc] at h
      exact Except.noConfusion h
  | ok pts =>
      rw [hc] at h
      dsimp only at h
      cases hdv : options.dataViews with
      | none =>
          rw [hdv] at h
          dsimp only at h
          exact Except.noConfusion h
      | some dvs =>
          rw [hdv] at h
          dsimp only at h
          cases hh : (cumulativeSeries (computeTotal pts) (JSNum.fin 0) pts).head? with
          | none =>
              rw [renderStage_none st options oq inc mids pts hh] at h
              exact Except.noConfusion h
          | some p0 =>
              rw [renderStage_some st options oq inc mids pts p0 hh] at h
              have h1 : stageResult st options oq inc mids pts p0 = st1 := Except.ok.inj h
              dsimp only
              rw [renderStage_some st1 options oq inc mids pts p0 hh]
              rw [← h1, stageResult_idem]

set_option maxHeartbeats 1000000 in
/-- C8 (amended): `index` equals the point's position in input order
(hence is unique), and the cumulative pass walks the points in exactly
that order; bar x positions, however, are keyed by the category label
through the band scale, so index order determines the x order only when
the labels are distinct (and the rounded band step is positive) — data
points sharing a label are drawn at the same x.  -/
theorem C8_index_order (options : VisualUpdateOptions) (pts : List BarChartDataPoint) (w : ℚ)
    (h : createSelectorDataPoints options = Except.ok pts)
    (hnodup : (pts.map (fun p => p.category)).Nodup)
    (hstep : 0 < (mkBandScale (pts.map (fun p => p.category)) 0 w).step) :
    (∀ (i : ℕ) (hi : i < pts.length), (pts.get ⟨i, hi⟩).index = i)
    ∧ (pts.map (fun p => p.index)).Nodup
    ∧ (∀ (t c : JSNum), (cumulativeSeries t c pts).map (fun p => (p.index, p.category, p.value))
        = pts.map (fun p => (p.index, p.category, p.value)))
    ∧ (∀ (i j : ℕ) (hi : i < pts.length) (hj : j < pts.length), i < j →
        ∃ xi xj : ℚ,
          (mkBandScale (pts.map (fun p => p.category)) 0 w).apply (pts.get ⟨i, hi⟩).category
            = some xi
          ∧ (mkBandScale (pts.map (fun p => p.category)) 0 w).apply (pts.get ⟨j, hj⟩).category
            = some xj
          ∧ xi < xj) := by
  have hidx : ∀ (i : ℕ) (hi : i < pts.length), (pts.get ⟨i, hi⟩).index = i :=
    fun i hi => (createSelectorDataPoints_fields options pts h i hi).1
  refine ⟨hidx, ?_, fun t c => cumulativeSeries_map_core t c pts, ?_⟩
  · have hmapeq : pts.map (fun p => p.index) = List.range pts.length := by
      apply List.ext_getElem
      · simp
      · intro n h1 h2
        simp only [List.getElem_map, List.getElem_range]
        have := hidx n (by simpa using h1)
        simpa [List.get_eq_getElem] using this
    rw [hmapeq]
    exact List.nodup_range pts.length
  · intro i j hi hj hij
    have hi2 : i < (pts.map (fun p => p.category)).length := by simpa using hi
    have hj2 : j < (pts.map (fun p => p.category)).length := by simpa using hj
    have hcati : (pts.get ⟨i, hi⟩).category
        = (pts.map (fun p => p.category)).get ⟨i, hi2⟩ := by
      simp [List.get_eq_getElem]
    have hcatj : (pts.get ⟨j, hj⟩).category
        = (pts.map (fun p => p.category)).get ⟨j, hj2⟩ := by
      simp [List.get_eq_getElem]
    refine ⟨(mkBandScale (pts.map (fun p => p.category)) 0 w).start
        + (mkBandScale (pts.map (fun p => p.category)) 0 w).step * i,
      (mkBandScale (pts.map (fun p => p.category)) 0 w).start
        + (mkBandScale (pts.map (fun p => p.category)) 0 w).step * j, ?_, ?_, ?_⟩
    · have hx := mkBandScale_apply_get (pts.map (fun p => p.category)) 0 w hnodup i hi2
      rw [← hcati] at hx
      exact hx
    · have hx := mkBandScale_apply_get (pts.map (fun p => p.category)) 0 w hnodup j hj2
      rw [← hcatj] at hx
      exact hx
    · have hc : (i : ℚ) < j := by exact_mod_cast hij
      have := mul_lt_mul_of_pos_left hc hstep
      linarith

section

attribute [local semireducible] Rat.mul Rat.inv Rat.add Rat.sub

set_option maxHeartbeats 4000000 in
/-- C7 witness: rendering the spec example twice from the state it
produced reproduces that state exactly.  -/
theorem C7_witness :
    update stABC optsABC 100 eqIncl none = Except.ok stABC :=
  C7_idempotent initialChartState stABC optsABC 100 eqIncl none (by decide)

set_option maxHeartbeats 4000000 in
/-- C8 counterexample: two data points both labelled A land on the same
x position (17) although their indices 0 and 1 differ — index does not
determine the x order when labels repeat.  -/
theorem C8_counterexample :
    ((update initialChartState optsDupLabel 100 eqIncl none).toOption.map
        (fun st => st.bars.map (fun e => (e.datum.index, e.attrs.x)))
      = some [(0, some 17), (1, some 17)])
    ∧ (0 : ℕ) ≠ 1 :=
  ⟨by decide, by decide⟩

/-- C8 witness: for the distinct labels A, B, C on a 100-wide viewport
the first and third bars sit at strictly increasing x.  -/
theorem C8_witness :
    ∃ xi xj : ℚ,
      (mkBandScale (ptsABC.map (fun p => p.category)) 0 100).apply
          (ptsABC.get ⟨0, by decide⟩).category = some xi
      ∧ (mkBandScale (ptsABC.map (fun p => p.category)) 0 100).apply
          (ptsABC.get ⟨2, by decide⟩).category = some xj
      ∧ xi < xj :=
  (C8_index_order optsABC ptsABC 100 (by decide) (by decide) (by decide)).2.2.2 0 2
    (by decide) (by decide) (by decide)

end

end ParetoSpec
